import Mathlib

/-!
# Verification of the wildfire data pipeline

A shallow embedding of the cleaning, validation, aggregation and
rendering-parameter code of the QUESST wildfire repository, with theorems
settling the specification claims about it.

Numeric cell values are modelled as rationals; a missing value (NaN after
pandas coercion) is modelled as Option.none.  Parsed timestamps are
modelled as integers (an unparseable date is Option.none).
-/

attribute [local semireducible] Rat.add Rat.mul Rat.inv Rat.sub

/-- A row of the NASA FIRMS table after numeric coercion, as consumed by
the cleaning code (wildfires/data_manager.py, wildfires/validators.py).
Each measurement column is an optional rational (none = NaN); ACQ_DATE is
the parsed acquisition timestamp. -/
structure FireRecord where
  LATITUDE : Option ℚ
  LONGITUDE : Option ℚ
  BRIGHTNESS : Option ℚ
  SCAN : Option ℚ
  TRACK : Option ℚ
  ACQ_DATE : Option ℤ
deriving DecidableEq, Repr

/-- Insert a rational into a sorted list, keeping it sorted. -/
def insertSorted (x : ℚ) : List ℚ → List ℚ
  | [] => [x]
  | y :: ys => if x ≤ y then x :: y :: ys else y :: insertSorted x ys

/-- Sort a list of rationals ascending (insertion sort). -/
def sortQ : List ℚ → List ℚ
  | [] => []
  | x :: xs => insertSorted x (sortQ xs)

/-- pandas Series.quantile with the default linear interpolation:
for the sorted values v_0 .. v_(n-1) and h = (n-1)*q, the result is
v_i + (h - i) * (v_(i+1) - v_i) with i = floor h. -/
def quantile (xs : List ℚ) (q : ℚ) : ℚ :=
  let s := sortQ xs
  let n := s.length
  if n = 0 then 0 else
    let h : ℚ := (n - 1 : ℚ) * q
    let i : ℕ := (Int.floor h).toNat
    let lo := s.getD i 0
    let hi := s.getD (min (i + 1) (n - 1)) 0
    lo + (h - (i : ℚ)) * (hi - lo)

/-- The IQR acceptance interval of a column over a table:
Q1 = quantile 0.25, Q3 = quantile 0.75 of the column's non-missing
values, returning (Q1 - 1.5*IQR, Q3 + 1.5*IQR). -/
def columnBounds (f : FireRecord → Option ℚ) (df : List FireRecord) : ℚ × ℚ :=
  let vals := df.filterMap f
  let q1 := quantile vals (1/4)
  let q3 := quantile vals (3/4)
  let iqr := q3 - q1
  (q1 - 3/2 * iqr, q3 + 3/2 * iqr)

/-- Row check: the column value is present and inside the bounds
(a missing value compares False, as in pandas). -/
def inBounds (f : FireRecord → Option ℚ) (b : ℚ × ℚ) (r : FireRecord) :
    Bool :=
  match f r with
  | some v => decide (b.1 ≤ v) && decide (v ≤ b.2)
  | none => false

/-- Keep the rows whose column value lies inside the given bounds. -/
def filterByBounds (f : FireRecord → Option ℚ) (b : ℚ × ℚ)
    (df : List FireRecord) : List FireRecord :=
  df.filter (inBounds f b)

/-- One iteration of the IQR outlier-rejection loop of
DataManager.clean_data (and of validate_numeric_columns): the quantiles
are computed over the current surviving table, then the table is
filtered. -/
def iqrFilter (f : FireRecord → Option ℚ) (df : List FireRecord) :
    List FireRecord :=
  filterByBounds f (columnBounds f df) df

/-- The IQR outlier-rejection pass of DataManager.clean_data: the loop
over ['BRIGHTNESS', 'SCAN', 'TRACK'], each column filtering the table the
next column's quantiles are computed on. -/
def sequentialIQR (df : List FireRecord) : List FireRecord :=
  iqrFilter (fun r => r.TRACK)
    (iqrFilter (fun r => r.SCAN)
      (iqrFilter (fun r => r.BRIGHTNESS) df))

/-- Modelled from the spec: the manual two-pass computation the spec
describes — per column, in the order brightness, scan, track, first
compute Q1/Q3 over the population surviving the previous columns'
filters, then filter by the resulting bounds. -/
def twoPassIQR (df : List FireRecord) : List FireRecord :=
  let d1 := filterByBounds (fun r => r.BRIGHTNESS)
    (columnBounds (fun r => r.BRIGHTNESS) df) df
  let d2 := filterByBounds (fun r => r.SCAN)
    (columnBounds (fun r => r.SCAN) d1) d1
  filterByBounds (fun r => r.TRACK)
    (columnBounds (fun r => r.TRACK) d2) d2

/-- Modelled from the spec: the rejected alternative the spec warns
against — all three IQR bounds computed simultaneously on the pre-filter
population, then all three filters applied. -/
def simultaneousIQR (df : List FireRecord) : List FireRecord :=
  let bb := columnBounds (fun r => r.BRIGHTNESS) df
  let sb := columnBounds (fun r => r.SCAN) df
  let tb := columnBounds (fun r => r.TRACK) df
  filterByBounds (fun r => r.TRACK) tb
    (filterByBounds (fun r => r.SCAN) sb
      (filterByBounds (fun r => r.BRIGHTNESS) bb df))

/-- The North-America coordinate mask of DataManager.clean_data and of
validate_coordinates: coordinates present, latitude in [south, north] =
[25, 70] and longitude in [west, east] = [-170, -50] (the BOUNDS of
wildfires/config.py). -/
def coordCheck (r : FireRecord) : Bool :=
  match r.LATITUDE, r.LONGITUDE with
  | some la, some lo =>
      decide (25 ≤ la) && decide (la ≤ 70) &&
      decide (-170 ≤ lo) && decide (lo ≤ -50)
  | _, _ => false

/-- DataManager.clean_data row filtering (wildfires/data_manager.py
lines 138-194): the North-America coordinate mask, the dropna over
BRIGHTNESS/SCAN/TRACK, then the sequential IQR pass.  The derived
fire_area / intensity / season / state columns do not remove rows and
are not modelled here. -/
def cleanData (df : List FireRecord) : List FireRecord :=
  let df1 := df.filter coordCheck
  let df2 := df1.filter fun r =>
    r.BRIGHTNESS.isSome && r.SCAN.isSome && r.TRACK.isSome
  sequentialIQR df2

/-- validators.validate_coordinates: drop rows with missing coordinates,
then keep rows inside the BOUNDS rectangle. -/
def validateCoordinates (df : List FireRecord) : List FireRecord :=
  let d1 := df.filter fun r => r.LATITUDE.isSome && r.LONGITUDE.isSome
  d1.filter coordCheck

/-- Row check of validators.validate_dates: the parsed datetime is
present and not in the future (not after the processing time now). -/
def dateCheck (now : ℤ) (r : FireRecord) : Bool :=
  match r.ACQ_DATE with
  | some d => decide (d ≤ now)
  | none => false

/-- validators.validate_dates: coerce ACQ_DATE to a timestamp, drop
missing dates, then drop future dates (datetime > now). -/
def validateDates (now : ℤ) (df : List FireRecord) : List FireRecord :=
  let d1 := df.filter fun r => r.ACQ_DATE.isSome
  d1.filter (dateCheck now)

/-- Row check of the positivity step of validate_numeric_columns: the
column value is present and strictly positive. -/
def posCheck (f : FireRecord → Option ℚ) (r : FireRecord) : Bool :=
  match f r with
  | some v => decide (0 < v)
  | none => false

/-- One column of validators.validate_numeric_columns: coerce to numeric
(already reflected in the Option-valued fields), drop missing values,
drop non-positive values (the column is one of BRIGHTNESS/SCAN/TRACK),
then apply the IQR outlier filter over the current survivors. -/
def validateNumericColumn (f : FireRecord → Option ℚ)
    (df : List FireRecord) : List FireRecord :=
  let d1 := df.filter fun r => (f r).isSome
  let d2 := d1.filter (posCheck f)
  iqrFilter f d2

/-- validators.validate_numeric_columns applied to the column list
['BRIGHTNESS', 'SCAN', 'TRACK'], each column narrowing the table seen
by the next. -/
def validateNumericColumns (df : List FireRecord) : List FireRecord :=
  validateNumericColumn (fun r => r.TRACK)
    (validateNumericColumn (fun r => r.SCAN)
      (validateNumericColumn (fun r => r.BRIGHTNESS) df))

/-- The cleaning pipeline assembled from the validators module in the
order of the specification (coordinate validation, date validation,
numeric validation); now is the processing time. -/
def validatorsClean (now : ℤ) (df : List FireRecord) : List FireRecord :=
  validateNumericColumns (validateDates now (validateCoordinates df))

-- Concrete tables used to separate the IQR variants.

/-- A record with all measurement fields present. -/
def mkRec (la lo b s t : ℚ) (d : ℤ) : FireRecord :=
  ⟨some la, some lo, some b, some s, some t, some d⟩

/-- Table separating sequential from simultaneous IQR filtering:
brightness 100 is an outlier of the brightness column, and scan 10 is an
outlier only of the scan population that survives the brightness
filter. -/
def exSeq : List FireRecord :=
  [ mkRec 40 (-100) 1 1 1 0
  , mkRec 41 (-101) 1 1 1 0
  , mkRec 42 (-102) 1 1 1 0
  , mkRec 43 (-103) 1 10 1 0
  , mkRec 44 (-104) 100 40 1 0 ]

/-- Table refuting idempotence of the IQR pass: on brightness values
1, 1, 1, 11, 41 the first pass drops 41, and the recomputed quantiles of
the surviving 1, 1, 1, 11 then drop 11. -/
def exIdem : List FireRecord :=
  [ mkRec 40 (-100) 1 1 1 0
  , mkRec 41 (-101) 1 1 1 0
  , mkRec 42 (-102) 1 1 1 0
  , mkRec 43 (-103) 11 1 1 0
  , mkRec 44 (-104) 41 1 1 0 ]

example : (sequentialIQR exSeq).length = 3 := by decide
example : (simultaneousIQR exSeq).length = 4 := by decide
example : (sequentialIQR exIdem).length = 4 := by decide
example : (sequentialIQR (sequentialIQR exIdem)).length = 3 := by decide

/-- A valid record: inside the North-America box, positive measurements,
past acquisition date. -/
def goodRec : FireRecord := mkRec 40 (-100) 310 1 1 0

/-- A record DataManager.clean_data keeps although its brightness is
negative: the coordinate mask passes, no value is missing, and a
single-row column has IQR = 0 with bounds [v, v], so the row survives
every IQR filter. -/
def badRec : FireRecord := mkRec 40 (-100) (-5) 1 1 0

-- Helper lemmas about membership in the filter chains.

theorem mem_of_mem_iqrFilter {f : FireRecord → Option ℚ}
    {df : List FireRecord} {r : FireRecord} (h : r ∈ iqrFilter f df) :
    r ∈ df :=
  List.mem_of_mem_filter h

theorem mem_of_mem_sequentialIQR {df : List FireRecord} {r : FireRecord}
    (h : r ∈ sequentialIQR df) : r ∈ df :=
  mem_of_mem_iqrFilter (mem_of_mem_iqrFilter (mem_of_mem_iqrFilter h))

theorem coordCheck_eq_true {r : FireRecord} (h : coordCheck r = true) :
    ∃ la lo, r.LATITUDE = some la ∧ r.LONGITUDE = some lo ∧
      25 ≤ la ∧ la ≤ 70 ∧ -170 ≤ lo ∧ lo ≤ -50 := by
  cases hla : r.LATITUDE with
  | none => simp [coordCheck, hla] at h
  | some la =>
    cases hlo : r.LONGITUDE with
    | none => simp [coordCheck, hla, hlo] at h
    | some lo =>
      simp only [coordCheck, hla, hlo, Bool.and_eq_true, decide_eq_true_eq]
        at h
      exact ⟨la, lo, rfl, rfl, h.1.1.1, h.1.1.2, h.1.2, h.2⟩

theorem posCheck_eq_true {f : FireRecord → Option ℚ} {r : FireRecord}
    (h : posCheck f r = true) : ∃ v, f r = some v ∧ 0 < v := by
  cases hv : f r with
  | none => simp [posCheck, hv] at h
  | some v =>
    simp only [posCheck, hv, decide_eq_true_eq] at h
    exact ⟨v, rfl, h⟩

theorem dateCheck_eq_true {now : ℤ} {r : FireRecord}
    (h : dateCheck now r = true) : ∃ d, r.ACQ_DATE = some d ∧ d ≤ now := by
  cases hd : r.ACQ_DATE with
  | none => simp [dateCheck, hd] at h
  | some d =>
    simp only [dateCheck, hd, decide_eq_true_eq] at h
    exact ⟨d, rfl, h⟩

theorem mem_of_mem_validateNumericColumn {f : FireRecord → Option ℚ}
    {df : List FireRecord} {r : FireRecord}
    (h : r ∈ validateNumericColumn f df) : r ∈ df ∧ posCheck f r = true := by
  have h2 := mem_of_mem_iqrFilter h
  exact ⟨List.mem_of_mem_filter (List.mem_of_mem_filter h2),
    List.of_mem_filter h2⟩

theorem mem_of_mem_validatorsClean {now : ℤ} {df : List FireRecord}
    {r : FireRecord} (h : r ∈ validatorsClean now df) :
    coordCheck r = true ∧ dateCheck now r = true ∧
      posCheck (fun r => r.BRIGHTNESS) r = true ∧
      posCheck (fun r => r.SCAN) r = true ∧
      posCheck (fun r => r.TRACK) r = true := by
  obtain ⟨h1, htr⟩ := mem_of_mem_validateNumericColumn h
  obtain ⟨h2, hsc⟩ := mem_of_mem_validateNumericColumn h1
  obtain ⟨h3, hbr⟩ := mem_of_mem_validateNumericColumn h2
  have hdt : dateCheck now r = true := List.of_mem_filter h3
  have h4 : r ∈ validateCoordinates df :=
    List.mem_of_mem_filter (List.mem_of_mem_filter h3)
  exact ⟨List.of_mem_filter h4, hdt, hbr, hsc, htr⟩

/-- C1: the claim as stated is false for DataManager.clean_data — a
single-row table with brightness -5 passes the coordinate mask, the
dropna, and every IQR filter (a one-value column has IQR 0 and bounds
[v, v]), so the cleaned dataset contains a record whose brightness is
not strictly positive. -/
theorem C1_clean_data_keeps_negative_brightness :
    cleanData [badRec] = [badRec] ∧
      badRec.BRIGHTNESS = some (-5) ∧
      (cleanData [badRec]).all (posCheck fun r => r.BRIGHTNESS) = false := by
  refine ⟨by decide, rfl, by decide⟩

/-- C1 (amended): every record produced by DataManager.clean_data has a
present latitude in [-90, 90] (indeed in [25, 70]), a present longitude
in [-180, 180] (indeed in [-170, -50]), and present (non-missing)
brightness, scan and track; strict positivity of the three measurements
and the no-future-date constraint are enforced only by the validators
pipeline (validate_coordinates, then validate_dates, then
validate_numeric_columns), whose every output record additionally has
brightness, scan, track strictly positive and a parsed datetime at or
before the processing time. -/
theorem C1_cleaned_record_invariants :
    (∀ df r, r ∈ cleanData df →
      (∃ la, r.LATITUDE = some la ∧ -90 ≤ la ∧ la ≤ 90) ∧
      (∃ lo, r.LONGITUDE = some lo ∧ -180 ≤ lo ∧ lo ≤ 180) ∧
      r.BRIGHTNESS.isSome = true ∧ r.SCAN.isSome = true ∧
      r.TRACK.isSome = true) ∧
    (∀ now df r, r ∈ validatorsClean now df →
      (∃ la, r.LATITUDE = some la ∧ -90 ≤ la ∧ la ≤ 90) ∧
      (∃ lo, r.LONGITUDE = some lo ∧ -180 ≤ lo ∧ lo ≤ 180) ∧
      (∃ b, r.BRIGHTNESS = some b ∧ 0 < b) ∧
      (∃ s, r.SCAN = some s ∧ 0 < s) ∧
      (∃ t2, r.TRACK = some t2 ∧ 0 < t2) ∧
      (∃ d, r.ACQ_DATE = some d ∧ d ≤ now)) := by
  constructor
  · intro df r h
    have h2 := mem_of_mem_sequentialIQR h
    have hna := List.of_mem_filter h2
    have h3 : r ∈ List.filter coordCheck df :=
      List.mem_of_mem_filter h2
    obtain ⟨la, lo, hla, hlo, h25, h70, hw, he⟩ :=
      coordCheck_eq_true (List.of_mem_filter h3)
    simp only [Bool.and_eq_true] at hna
    exact ⟨⟨la, hla, by linarith, by linarith⟩,
      ⟨lo, hlo, by linarith, by linarith⟩, hna.1.1, hna.1.2, hna.2⟩
  · intro now df r h
    obtain ⟨hc, hd, hb, hs, ht⟩ := mem_of_mem_validatorsClean h
    obtain ⟨la, lo, hla, hlo, h25, h70, hw, he⟩ := coordCheck_eq_true hc
    obtain ⟨d, hd1, hd2⟩ := dateCheck_eq_true hd
    exact ⟨⟨la, hla, by linarith, by linarith⟩,
      ⟨lo, hlo, by linarith, by linarith⟩,
      posCheck_eq_true hb, posCheck_eq_true hs, posCheck_eq_true ht,
      ⟨d, hd1, hd2⟩⟩

/-- C1 witness: the concrete valid record survives both cleaning paths
and the invariants hold for it. -/
theorem C1_cleaned_record_invariants_witness :
    (∃ la, goodRec.LATITUDE = some la ∧ -90 ≤ la ∧ la ≤ 90) ∧
      (∃ b, goodRec.BRIGHTNESS = some b ∧ 0 < b) ∧
      (∃ d, goodRec.ACQ_DATE = some d ∧ d ≤ (1 : ℤ)) := by
  have h1 := C1_cleaned_record_invariants.1 [goodRec] goodRec (by decide)
  have h2 := C1_cleaned_record_invariants.2 1 [goodRec] goodRec (by decide)
  exact ⟨h1.1, h2.2.2.1, h2.2.2.2.2.2⟩

/-- C2: the IQR loop of clean_data is sequential-narrowing — it equals
the manual two-pass computation whose per-column Q1/Q3 are taken over
the population surviving the previous columns' filters — and it differs
from computing all three IQR bounds simultaneously on the pre-filter
population, witnessed by the concrete table exSeq. -/
theorem C2_sequential_iqr_narrowing :
    (∀ df, sequentialIQR df = twoPassIQR df) ∧
      sequentialIQR exSeq ≠ simultaneousIQR exSeq :=
  ⟨fun _ => rfl, by decide⟩

/-- C3: the claim as stated is false — the table exIdem yields a 4-row
output under the IQR pass, and running the pass again on that output
removes one more row (the recomputed quantiles of the survivors tighten
the bounds). -/
theorem C3_counterexample_second_pass_removes_rows :
    (sequentialIQR exIdem).length = 4 ∧
      (sequentialIQR (sequentialIQR exIdem)).length = 3 ∧
      sequentialIQR (sequentialIQR exIdem) ≠ sequentialIQR exIdem := by
  refine ⟨by decide, by decide, by decide⟩

theorem iqrFilter_sublist (f : FireRecord → Option ℚ)
    (df : List FireRecord) : (iqrFilter f df).Sublist df :=
  List.filter_sublist df

theorem sequentialIQR_sublist (df : List FireRecord) :
    (sequentialIQR df).Sublist df :=
  ((iqrFilter_sublist _ _).trans (iqrFilter_sublist _ _)).trans
    (iqrFilter_sublist _ _)

/-- C3 (amended): re-running the IQR outlier-rejection pass on an
already-cleaned table never adds rows — the second pass's output is a
sublist of the first's — but the pass is not idempotent: on the output
of the pass over exIdem a second run removes an additional row. -/
theorem C3_iqr_not_idempotent :
    (∀ df, (sequentialIQR (sequentialIQR df)).Sublist (sequentialIQR df)) ∧
      sequentialIQR (sequentialIQR exIdem) ≠ sequentialIQR exIdem :=
  ⟨fun df => sequentialIQR_sublist (sequentialIQR df), by decide⟩

/-! ## Rendering: pixel radius (wildfires/visualizer.py, config.py) -/

/-- VIS_SETTINGS.fire_markers.min_radius (wildfires/config.py). -/
def minRadius : ℝ := 2

/-- VIS_SETTINGS.fire_markers.max_radius (wildfires/config.py). -/
def maxRadius : ℝ := 20

/-- FireVisualizer.PIXELS_PER_KM (wildfires/visualizer.py line 44). -/
def pixelsPerKm : ℝ := 0.05

/-- FireVisualizer._calculate_pixel_radius (wildfires/visualizer.py
lines 137-165): circular-footprint radius sqrt(area/pi), Mercator
correction cos(radians(latitude)), Web-Mercator scale 156.543/2^zoom km
per pixel, base scale factor, then np.clip to
[min_radius, max_radius]. -/
noncomputable def calculatePixelRadius (area latitude : ℝ) (zoom : ℕ) :
    ℝ :=
  let radiusKm := Real.sqrt (area / Real.pi)
  let mercatorCorrection := Real.cos (latitude * Real.pi / 180)
  let kmPerPixel := 156.543 / 2 ^ zoom
  let pixelRadius := radiusKm * mercatorCorrection / kmPerPixel * pixelsPerKm
  min (max pixelRadius minRadius) maxRadius

theorem calculatePixelRadius_eq (area latitude : ℝ) (zoom : ℕ) :
    calculatePixelRadius area latitude zoom =
      min (max (Real.sqrt (area / Real.pi) *
          (Real.cos (latitude * Real.pi / 180) / (156.543 / 2 ^ zoom) *
            pixelsPerKm)) minRadius) maxRadius := by
  simp only [calculatePixelRadius]
  ring_nf

theorem calculatePixelRadius_mono (latitude : ℝ) (zoom : ℕ)
    {a1 a2 : ℝ} (h : a1 ≤ a2) :
    calculatePixelRadius a1 latitude zoom ≤
      calculatePixelRadius a2 latitude zoom := by
  rw [calculatePixelRadius_eq, calculatePixelRadius_eq]
  rcases le_or_lt 0
      (Real.cos (latitude * Real.pi / 180) / (156.543 / 2 ^ zoom) *
        pixelsPerKm) with hC | hC
  · have hs : Real.sqrt (a1 / Real.pi) ≤ Real.sqrt (a2 / Real.pi) :=
      Real.sqrt_le_sqrt ((div_le_div_iff_of_pos_right Real.pi_pos).mpr h)
    exact min_le_min
      (max_le_max (mul_le_mul_of_nonneg_right hs hC) le_rfl) le_rfl
  · have h1 : Real.sqrt (a1 / Real.pi) *
        (Real.cos (latitude * Real.pi / 180) / (156.543 / 2 ^ zoom) *
          pixelsPerKm) ≤ minRadius :=
      le_trans (mul_nonpos_of_nonneg_of_nonpos (Real.sqrt_nonneg _) hC.le)
        (by norm_num [minRadius])
    have h2 : Real.sqrt (a2 / Real.pi) *
        (Real.cos (latitude * Real.pi / 180) / (156.543 / 2 ^ zoom) *
          pixelsPerKm) ≤ minRadius :=
      le_trans (mul_nonpos_of_nonneg_of_nonpos (Real.sqrt_nonneg _) hC.le)
        (by norm_num [minRadius])
    rw [max_eq_right h1, max_eq_right h2]

theorem sqrt_two_div_two_le_one : Real.sqrt 2 / 2 ≤ 1 := by
  rw [div_le_one (by norm_num : (0:ℝ) < 2)]
  calc Real.sqrt 2 ≤ Real.sqrt (2 ^ 2) := Real.sqrt_le_sqrt (by norm_num)
  _ = 2 := Real.sqrt_sq (by norm_num)

theorem seven_tenths_le_sqrt_two_div_two : (7 : ℝ) / 10 ≤ Real.sqrt 2 / 2 := by
  have h : (7 : ℝ) / 5 ≤ Real.sqrt 2 := by
    calc (7 : ℝ) / 5 = Real.sqrt ((7 / 5) ^ 2) :=
          (Real.sqrt_sq (by norm_num)).symm
    _ ≤ Real.sqrt 2 := Real.sqrt_le_sqrt (by norm_num)
  linarith

theorem calculatePixelRadius_small :
    calculatePixelRadius (1 / 10000) 45 4 = minRadius := by
  rw [calculatePixelRadius_eq]
  have h45 : (45 : ℝ) * Real.pi / 180 = Real.pi / 4 := by ring
  rw [h45, Real.cos_pi_div_four]
  have hz : ((2 : ℝ) ^ (4 : ℕ)) = 16 := by norm_num
  rw [hz]
  have hsle : (1 / 10000 : ℝ) / Real.pi ≤ 1 / 10000 :=
    div_le_self (by norm_num) (by linarith [Real.pi_gt_three])
  have hs : Real.sqrt (1 / 10000 / Real.pi) ≤ 1 / 100 := by
    calc Real.sqrt (1 / 10000 / Real.pi) ≤ Real.sqrt (1 / 10000) :=
          Real.sqrt_le_sqrt hsle
    _ = 1 / 100 := by
          rw [show (1 / 10000 : ℝ) = (1 / 100) ^ 2 by norm_num,
            Real.sqrt_sq (by norm_num)]
  have hu : Real.sqrt 2 / 2 / (156.543 / 16) * pixelsPerKm ≤
      1 / (156.543 / 16) * pixelsPerKm := by
    have hk : (0 : ℝ) < 156.543 / 16 := by norm_num
    have := (div_le_div_iff_of_pos_right hk).mpr sqrt_two_div_two_le_one
    have hp : (0 : ℝ) ≤ pixelsPerKm := by norm_num [pixelsPerKm]
    exact mul_le_mul_of_nonneg_right this hp
  have hu0 : (0 : ℝ) ≤ Real.sqrt 2 / 2 / (156.543 / 16) * pixelsPerKm := by
    have h2 : (0 : ℝ) ≤ Real.sqrt 2 / 2 := by positivity
    have hk : (0 : ℝ) < 156.543 / 16 := by norm_num
    have hp : (0 : ℝ) ≤ pixelsPerKm := by norm_num [pixelsPerKm]
    positivity
  have hx : Real.sqrt (1 / 10000 / Real.pi) *
      (Real.sqrt 2 / 2 / (156.543 / 16) * pixelsPerKm) ≤ minRadius := by
    calc Real.sqrt (1 / 10000 / Real.pi) *
          (Real.sqrt 2 / 2 / (156.543 / 16) * pixelsPerKm) ≤
        (1 / 100) * (1 / (156.543 / 16) * pixelsPerKm) :=
          mul_le_mul hs hu hu0 (by norm_num)
    _ ≤ minRadius := by norm_num [pixelsPerKm, minRadius]
  rw [max_eq_right hx, min_eq_left (by norm_num [minRadius, maxRadius])]

theorem calculatePixelRadius_large :
    calculatePixelRadius (10 ^ 9) 45 4 = maxRadius := by
  rw [calculatePixelRadius_eq]
  have h45 : (45 : ℝ) * Real.pi / 180 = Real.pi / 4 := by ring
  rw [h45, Real.cos_pi_div_four]
  have hz : ((2 : ℝ) ^ (4 : ℕ)) = 16 := by norm_num
  rw [hz]
  have hs : (15000 : ℝ) ≤ Real.sqrt ((10 : ℝ) ^ 9 / Real.pi) := by
    have h2 : (15000 : ℝ) ^ 2 ≤ (10 : ℝ) ^ 9 / Real.pi := by
      rw [le_div_iff₀ Real.pi_pos]
      nlinarith [Real.pi_le_four, Real.pi_pos]
    calc (15000 : ℝ) = Real.sqrt ((15000 : ℝ) ^ 2) :=
          (Real.sqrt_sq (by norm_num)).symm
    _ ≤ Real.sqrt ((10 : ℝ) ^ 9 / Real.pi) := Real.sqrt_le_sqrt h2
  have hu : (7 / 10 : ℝ) / (156.543 / 16) * pixelsPerKm ≤
      Real.sqrt 2 / 2 / (156.543 / 16) * pixelsPerKm := by
    have hk : (0 : ℝ) < 156.543 / 16 := by norm_num
    have := (div_le_div_iff_of_pos_right hk).mpr seven_tenths_le_sqrt_two_div_two
    have hp : (0 : ℝ) ≤ pixelsPerKm := by norm_num [pixelsPerKm]
    exact mul_le_mul_of_nonneg_right this hp
  have hx : maxRadius ≤ Real.sqrt ((10 : ℝ) ^ 9 / Real.pi) *
      (Real.sqrt 2 / 2 / (156.543 / 16) * pixelsPerKm) := by
    calc maxRadius ≤
        (15000 : ℝ) * ((7 / 10 : ℝ) / (156.543 / 16) * pixelsPerKm) := by
          norm_num [pixelsPerKm, maxRadius]
    _ ≤ Real.sqrt ((10 : ℝ) ^ 9 / Real.pi) *
          (Real.sqrt 2 / 2 / (156.543 / 16) * pixelsPerKm) :=
          mul_le_mul hs hu (by norm_num [pixelsPerKm]) (by positivity)
  have h2x : minRadius ≤ Real.sqrt ((10 : ℝ) ^ 9 / Real.pi) *
      (Real.sqrt 2 / 2 / (156.543 / 16) * pixelsPerKm) :=
    le_trans (by norm_num [minRadius, maxRadius]) hx
  rw [max_eq_left h2x, min_eq_right hx]

/-- C4: the pixel radius is monotone non-decreasing in area for every
fixed latitude and zoom; it is clipped to [min_radius, max_radius];
radius(area=0.0001, lat=45, zoom=4) = min_radius and
radius(area=1e9, lat=45, zoom=4) = max_radius, with the configured
defaults min_radius = 2 and max_radius = 20. -/
theorem C4_pixel_radius_monotone_and_clipped :
    (∀ (latitude : ℝ) (zoom : ℕ) (a1 a2 : ℝ), a1 ≤ a2 →
      calculatePixelRadius a1 latitude zoom ≤
        calculatePixelRadius a2 latitude zoom) ∧
    calculatePixelRadius (1 / 10000) 45 4 = minRadius ∧
    calculatePixelRadius (10 ^ 9) 45 4 = maxRadius ∧
    minRadius = 2 ∧ maxRadius = 20 :=
  ⟨fun latitude zoom _ _ h => calculatePixelRadius_mono latitude zoom h,
    calculatePixelRadius_small, calculatePixelRadius_large, rfl, rfl⟩

/-- C4 witness: the monotonicity part applied at areas 1 and 2. -/
theorem C4_pixel_radius_witness :
    calculatePixelRadius 1 45 4 ≤ calculatePixelRadius 2 45 4 :=
  C4_pixel_radius_monotone_and_clipped.1 45 4 1 2 (by norm_num)

/-! ## Rendering: color class (wildfires/visualizer.py lines 167-211) -/

/-- VIS_SETTINGS.colors.low_intensity (wildfires/config.py). -/
def lowIntensityColor : String := "#2196f3"

/-- VIS_SETTINGS.colors.medium_intensity (wildfires/config.py). -/
def mediumIntensityColor : String := "#ff9800"

/-- VIS_SETTINGS.colors.high_intensity (wildfires/config.py). -/
def highIntensityColor : String := "#f44336"

/-- The color selection of FireVisualizer._create_fire_feature on the
already-clipped normalized intensity: below 0.33 the low-intensity
color, otherwise below 0.66 the medium-intensity color, otherwise the
high-intensity color. -/
def colorClass (n : ℚ) : String :=
  if n < 33 / 100 then lowIntensityColor
  else if n < 66 / 100 then mediumIntensityColor
  else highIntensityColor

/-- C6: the color class is the three-way threshold on the clipped
normalized intensity n — n < 0.33 low, 0.33 ≤ n < 0.66 medium,
n ≥ 0.66 high — and the boundary values route deterministically:
0.33 to medium, 0.66 to high, 0.329999 to low, 0.330001 to medium. -/
theorem C6_color_class_thresholds :
    (∀ n : ℚ, (n < 33 / 100 → colorClass n = lowIntensityColor) ∧
      (33 / 100 ≤ n → n < 66 / 100 → colorClass n = mediumIntensityColor) ∧
      (66 / 100 ≤ n → colorClass n = highIntensityColor)) ∧
    colorClass (33 / 100) = mediumIntensityColor ∧
    colorClass (66 / 100) = highIntensityColor ∧
    colorClass (329999 / 1000000) = lowIntensityColor ∧
    colorClass (330001 / 1000000) = mediumIntensityColor := by
  refine ⟨fun n => ⟨fun h => if_pos h, fun h1 h2 => ?_, fun h => ?_⟩,
    by decide, by decide, by decide, by decide⟩
  · rw [colorClass, if_neg (not_lt.mpr h1), if_pos h2]
  · rw [colorClass, if_neg (not_lt.mpr (by linarith)),
      if_neg (not_lt.mpr h)]

/-- C6 witness: the threshold characterization applied at the concrete
intensities 0, 1/2 and 1. -/
theorem C6_color_class_thresholds_witness :
    colorClass 0 = lowIntensityColor ∧
      colorClass (1 / 2) = mediumIntensityColor ∧
      colorClass 1 = highIntensityColor :=
  ⟨(C6_color_class_thresholds.1 0).1 (by norm_num),
    (C6_color_class_thresholds.1 (1 / 2)).2.1 (by norm_num) (by norm_num),
    (C6_color_class_thresholds.1 1).2.2 (by norm_num)⟩

/-! ## Aggregated records of the visualization stage -/

/-- A row of the time-series table inside
FireVisualizer.create_visualization: the assigned state label, the
derived fire_area and intensity, and the datetime stamp that the
state-level groupby counts. -/
structure VisRecord where
  state : String
  fire_area : ℚ
  intensity : ℚ
  datetime : ℤ
deriving DecidableEq, Repr

/-- Sum of fire_area over the records of one state
(the 'fire_area': 'sum' aggregation of the state-level groupby). -/
def stateTotalArea (data : List VisRecord) (st : String) : ℚ :=
  ((data.filter fun r => r.state == st).map fun r => r.fire_area).sum

/-- Number of records of one state (the 'datetime': 'count' aggregation
of the state-level groupby). -/
def stateFireCount (data : List VisRecord) (st : String) : ℕ :=
  (data.filter fun r => r.state == st).length

/-- The state-level statistics of
FireVisualizer._aggregate_by_location_and_season (wildfires/visualizer.py
lines 236-245): group the full table by state and report summed
fire_area and record count per state. -/
def stateData (data : List VisRecord) : List (String × ℚ × ℕ) :=
  ((data.map fun r => r.state).dedup).map fun s =>
    (s, stateTotalArea data s, stateFireCount data s)

/-- Replace the datetime stamp of a record (the temporal information a
temporal binning would act on), leaving every other field unchanged. -/
def setDatetime (f : VisRecord → ℤ) (r : VisRecord) : VisRecord :=
  { r with datetime := f r }

theorem stateTotalArea_setDatetime (f : VisRecord → ℤ) (st : String)
    (data : List VisRecord) :
    stateTotalArea (data.map (setDatetime f)) st = stateTotalArea data st := by
  induction data with
  | nil => rfl
  | cons r rs ih =>
    simp only [stateTotalArea, List.map_cons, List.filter_cons] at ih ⊢
    by_cases h : (r.state == st) = true
    · simp only [setDatetime, h] at ih ⊢
      simp [ih]
    · simp only [setDatetime, h] at ih ⊢
      simp only [Bool.false_eq_true, if_false] at ih ⊢
      exact ih

theorem stateFireCount_setDatetime (f : VisRecord → ℤ) (st : String)
    (data : List VisRecord) :
    stateFireCount (data.map (setDatetime f)) st = stateFireCount data st := by
  induction data with
  | nil => rfl
  | cons r rs ih =>
    simp only [stateFireCount, List.map_cons, List.filter_cons] at ih ⊢
    by_cases h : (r.state == st) = true
    · simp only [setDatetime, h] at ih ⊢
      simp [ih]
    · simp only [setDatetime, h] at ih ⊢
      simp only [Bool.false_eq_true, if_false] at ih ⊢
      exact ih

/-- C8: the state summarizer groups the full population by state label
and reports per state the summed fire_area and the record count; it is
independent of temporal binning (replacing every record's datetime
leaves it unchanged); and on two records labeled CA with areas 2 and 3
it yields exactly the CA entry with total area 5 and count 2. -/
theorem C8_state_summary :
    (∀ (f : VisRecord → ℤ) (data : List VisRecord),
      stateData (data.map (setDatetime f)) = stateData data) ∧
    stateData [⟨"CA", 2, 0, 0⟩, ⟨"CA", 3, 0, 1⟩] = [("CA", 5, 2)] := by
  constructor
  · intro f data
    have hst : (data.map (setDatetime f)).map (fun r => r.state) =
        data.map fun r => r.state := by
      rw [List.map_map]; rfl
    simp only [stateData, hst]
    refine List.map_congr_left fun s _ => ?_
    rw [stateTotalArea_setDatetime, stateFireCount_setDatetime]
  · decide

/-! ## Rendering: intensity normalization (wildfires/visualizer.py) -/

/-- pandas Series.min over the aggregated intensity column (the
intensity_min of create_visualization); 0 for an empty column. -/
def intensityMinOf (vals : List ℚ) : ℚ :=
  match vals with
  | [] => 0
  | x :: xs => xs.foldl min x

/-- pandas Series.max over the aggregated intensity column (the
intensity_max of create_visualization); 0 for an empty column. -/
def intensityMaxOf (vals : List ℚ) : ℚ :=
  match vals with
  | [] => 0
  | x :: xs => xs.foldl max x

/-- The normalized-intensity computation of _create_fire_feature
(wildfires/visualizer.py lines 169-171):
(intensity - intensity_min) / (intensity_max - intensity_min), clipped
to [0, 1].  The division carries no guard; a zero denominator is the
fallible case and is modelled as none (the float code produces NaN
there). -/
def normalizedIntensity (x imin imax : ℚ) : Option ℚ :=
  if imax - imin = 0 then none
  else some (max 0 (min 1 ((x - imin) / (imax - imin))))

theorem foldl_min_const (c : ℚ) :
    ∀ (xs : List ℚ) (x : ℚ), x = c → (∀ v ∈ xs, v = c) →
      xs.foldl min x = c := by
  intro xs
  induction xs with
  | nil => intro x hx _; simpa using hx
  | cons y ys ih =>
    intro x hx hall
    have hy : y = c := hall y (by simp)
    simp only [List.foldl_cons]
    exact ih (min x y) (by rw [hx, hy, min_self])
      fun v hv => hall v (by simp [hv])

theorem foldl_max_const (c : ℚ) :
    ∀ (xs : List ℚ) (x : ℚ), x = c → (∀ v ∈ xs, v = c) →
      xs.foldl max x = c := by
  intro xs
  induction xs with
  | nil => intro x hx _; simpa using hx
  | cons y ys ih =>
    intro x hx hall
    have hy : y = c := hall y (by simp)
    simp only [List.foldl_cons]
    exact ih (max x y) (by rw [hx, hy, max_self])
      fun v hv => hall v (by simp [hv])

/-- C10: the aggregate-level intensity normalization is well-defined
only when the batch maximum strictly exceeds the batch minimum — for
every nonempty batch whose intensity values are all equal, the computed
intensity_max equals intensity_min, the denominator
intensity_max - intensity_min is zero, and the unguarded normalized
intensity (hence the color class fed from it) is undefined. -/
theorem C10_normalization_undefined_on_constant_batch :
    ∀ (vals : List ℚ) (c : ℚ), vals ≠ [] → (∀ v ∈ vals, v = c) →
      intensityMaxOf vals = intensityMinOf vals ∧
      intensityMaxOf vals - intensityMinOf vals = 0 ∧
      ∀ x, normalizedIntensity x (intensityMinOf vals)
        (intensityMaxOf vals) = none := by
  intro vals c hne hall
  match vals, hne with
  | v :: vs, _ =>
    have hv : v = c := hall v (by simp)
    have hmin : intensityMinOf (v :: vs) = c :=
      foldl_min_const c vs v hv fun w hw => hall w (by simp [hw])
    have hmax : intensityMaxOf (v :: vs) = c :=
      foldl_max_const c vs v hv fun w hw => hall w (by simp [hw])
    refine ⟨by rw [hmin, hmax], by rw [hmin, hmax]; ring, fun x => ?_⟩
    rw [normalizedIntensity, if_pos (by rw [hmin, hmax]; ring)]

/-- C10 witness: the constant batch [3, 3] with the probe intensity 5. -/
theorem C10_normalization_undefined_witness :
    intensityMaxOf [3, 3] = intensityMinOf [3, 3] ∧
      intensityMaxOf [3, 3] - intensityMinOf [3, 3] = 0 ∧
      normalizedIntensity 5 (intensityMinOf [3, 3])
        (intensityMaxOf [3, 3]) = none := by
  have h := C10_normalization_undefined_on_constant_batch [3, 3] 3
    (by decide) (by decide)
  exact ⟨h.1, h.2.1, h.2.2 5⟩

/-! ## Density sampling (wildfires/visualizer.py lines 293-303,
fire_visualizer.py lines 160-163) -/

/-- PERFORMANCE.max_points_per_frame (wildfires/config.py line 59). -/
def maxPointsPerFrame : ℕ := 1000

/-- The per-record sampling weight of create_visualization:
|intensity| * fire_area. -/
def sampleWeight (r : VisRecord) : ℚ := |r.intensity| * r.fire_area

/-- The per-group density cap of FireVisualizer.create_visualization:
a group larger than max_points_per_frame is replaced by a weighted
random draw (DataFrame.sample with n = max_points_per_frame, weights
|intensity| * fire_area, random_state 42, modelled by the selection
function argument); a group at or under the cap passes through
unchanged. -/
def densitySample (select : ℕ → List VisRecord → List VisRecord)
    (group : List VisRecord) : List VisRecord :=
  if maxPointsPerFrame < group.length then select maxPointsPerFrame group
  else group

/-- The record count densitySample emits for an input group of the
given size. -/
def emittedCount (n : ℕ) : ℕ :=
  if maxPointsPerFrame < n then maxPointsPerFrame else n

/-- The subsample size of smart_sample in fire_visualizer.py:
min(len(group), max(1, int(len(group) * 0.2))), with the float
truncation int(n * 0.2) rendered as floor division by 5. -/
def smartSampleSize (n : ℕ) : ℕ := min n (max 1 (n / 5))

/-- Modelled from the spec: the record count the claim asserts for a
group whose count exceeds the cap —
min(cap, max(1, round(count * sample_fraction))) with sample_fraction
0.2. -/
def claimedSampleSize (n cap : ℕ) : ℕ :=
  min cap (max 1 (round ((n : ℚ) / 5)).toNat)

/-- C5: the claim as stated is false for the visualizer's density
sampler — a group of 1500 records exceeds the cap of 1000, the code
emits exactly 1000 records, but the claimed formula
min(cap, max(1, round(count * 0.2))) yields 300. -/
theorem C5_counterexample_sample_size_formula :
    emittedCount 1500 = 1000 ∧ claimedSampleSize 1500 1000 = 300 ∧
      emittedCount 1500 ≠ claimedSampleSize 1500 1000 := by
  refine ⟨by decide, by decide, by decide⟩

/-- C5 (amended): the sampler never increases a group's record count;
a group at or under the cap passes through unchanged; a group over the
cap is reduced to exactly max_points_per_frame = 1000 records (not to
min(cap, max(1, round(count * 0.2))); the two agree at count 10,000,
where both give 1000).  The selection function models the weighted
seeded draw of DataFrame.sample and is only assumed to return exactly n
of the group's records when n does not exceed the group size.  The
fraction-based size min(count, max(1, floor(count * 0.2))) belongs to
smart_sample of fire_visualizer.py, which never increases the count
either. -/
theorem C5_density_sampling_caps_groups :
    (∀ (select : ℕ → List VisRecord → List VisRecord),
      (∀ n g, n ≤ g.length → (select n g).length = n) →
      ∀ group : List VisRecord,
        (densitySample select group).length = emittedCount group.length ∧
        (densitySample select group).length ≤ group.length ∧
        (group.length ≤ maxPointsPerFrame →
          densitySample select group = group)) ∧
    emittedCount 10000 = 1000 ∧
    claimedSampleSize 10000 1000 = 1000 ∧
    (∀ n, smartSampleSize n ≤ n) := by
  refine ⟨fun select hsel group => ?_, by decide, by decide,
    fun n => min_le_left _ _⟩
  by_cases h : maxPointsPerFrame < group.length
  · have hlen : (select maxPointsPerFrame group).length =
        maxPointsPerFrame := hsel _ _ h.le
    refine ⟨?_, ?_, fun hle => absurd h (not_lt.mpr hle)⟩
    · rw [densitySample, if_pos h, emittedCount, if_pos h, hlen]
    · rw [densitySample, if_pos h, hlen]; exact h.le
  · refine ⟨?_, ?_, fun _ => by rw [densitySample, if_neg h]⟩
    · rw [densitySample, if_neg h, emittedCount, if_neg h]
    · rw [densitySample, if_neg h]

/-- C5 witness: the take-prefix selection (which returns exactly n
records when n is at most the group size) on a group of 1001 equal
records: the output has exactly 1000 = emittedCount 1001 records, no
more than the input. -/
theorem C5_density_sampling_caps_groups_witness :
    (densitySample (fun n g => g.take n)
        (List.replicate 1001 ⟨"CA", 1, 1, 0⟩)).length =
      emittedCount (List.replicate 1001 (⟨"CA", 1, 1, 0⟩ : VisRecord)).length ∧
    (densitySample (fun n g => g.take n)
        (List.replicate 1001 ⟨"CA", 1, 1, 0⟩)).length ≤
      (List.replicate 1001 (⟨"CA", 1, 1, 0⟩ : VisRecord)).length := by
  have h := C5_density_sampling_caps_groups.1 (fun n g => g.take n)
    (fun n g hn => by simp [List.length_take, Nat.min_eq_left hn])
    (List.replicate 1001 ⟨"CA", 1, 1, 0⟩)
  exact ⟨h.1, h.2.1⟩

/-! ## Pipeline-level handling of empty cleaned data
(preprocess_fire_data.py lines 209-260) -/

/-- FireDataPreprocessor.process_file: clean one file's table; return
the cleaned table when it is nonempty, otherwise None (the file
contributes nothing, without raising). -/
def processFile (clean : List FireRecord → List FireRecord)
    (t : List FireRecord) : Option (List FireRecord) :=
  let c := clean t
  if 0 < c.length then some c else none

/-- FireDataPreprocessor.process_data control flow over the per-file
results (lines 247-263): collect the nonempty cleaned tables; when none
remain, raise ValueError; otherwise concatenate them.  The raised
exception is modelled as Except.error with the source's message. -/
def processData (clean : List FireRecord → List FireRecord)
    (files : List (List FireRecord)) : Except String (List FireRecord) :=
  let allData := files.filterMap (processFile clean)
  if allData.isEmpty then
    Except.error "No data was successfully processed"
  else
    Except.ok allData.flatten

/-- C7: the claim as stated is false — an input whose cleaning output is
empty does not yield an empty output: process_data raises ValueError
("No data was successfully processed"), here on a single empty file
cleaned by DataManager.clean_data. -/
theorem C7_counterexample_empty_cleaning_raises :
    processData cleanData [[]] =
      Except.error "No data was successfully processed" := rfl

/-- C7 (amended): when every input file's cleaning output contains zero
records, process_data raises ValueError("No data was successfully
processed") rather than returning an empty output; a single file whose
cleaning output is empty is skipped without an exception (process_file
returns None) and the remaining files are processed unaffected. -/
theorem C7_empty_cleaning_handling :
    (∀ (clean : List FireRecord → List FireRecord) files,
      (∀ t ∈ files, clean t = []) →
      processData clean files =
        Except.error "No data was successfully processed") ∧
    (∀ (clean : List FireRecord → List FireRecord) t,
      clean t = [] → processFile clean t = none) ∧
    (∀ (clean : List FireRecord → List FireRecord) files t,
      processFile clean t = none →
      processData clean (t :: files) = processData clean files) := by
  refine ⟨fun clean files hall => ?_, fun clean t h => ?_,
    fun clean files t h => ?_⟩
  · have hnil : files.filterMap (processFile clean) = [] := by
      rw [List.filterMap_eq_nil_iff]
      intro t ht
      rw [processFile, hall t ht]
      rfl
    rw [processData, hnil]
    rfl
  · rw [processFile, h]
    rfl
  · rw [processData, processData, List.filterMap_cons_none h]

/-- C7 witness: two files both cleaning to empty under
DataManager.clean_data make process_data raise, and the first is
skipped without error. -/
theorem C7_empty_cleaning_handling_witness :
    processData cleanData [[], []] =
      Except.error "No data was successfully processed" ∧
    processFile cleanData [] = none := by
  refine ⟨C7_empty_cleaning_handling.1 cleanData [[], []] ?_,
    C7_empty_cleaning_handling.2.1 cleanData [] (by decide)⟩
  intro t ht
  have : t = [] := by
    rcases List.mem_cons.mp ht with h | h
    · exact h
    · simpa using h
  rw [this]
  decide

/-! ## Schema normalization (preprocess_fire_data.py lines 55-90) -/

/-- The column_mapping dictionary of
FireDataPreprocessor.standardize_columns: source column-name variants
mapped to canonical names. -/
def columnMapping : List (String × String) :=
  [("latitude", "latitude"), ("longitude", "longitude"),
   ("LATITUDE", "latitude"), ("LONGITUDE", "longitude"),
   ("brightness", "brightness"), ("BRIGHTNESS", "brightness"),
   ("scan", "scan"), ("track", "track"),
   ("acq_date", "date"), ("ACQ_DATE", "date"),
   ("acq_time", "time"), ("ACQ_TIME", "time"),
   ("satellite", "satellite"), ("SATELLITE", "satellite"),
   ("instrument", "instrument"), ("INSTRUMENT", "instrument"),
   ("confidence", "confidence"), ("CONFIDENCE", "confidence"),
   ("version", "version"), ("VERSION", "version"),
   ("bright_t31", "brightness_t31"),
   ("frp", "fire_radiative_power"), ("FRP", "fire_radiative_power"),
   ("daynight", "day_night"), ("DAYNIGHT", "day_night")]

/-- FireDataPreprocessor.standardize_columns: rename every column whose
name is a key of column_mapping to the mapped canonical name; every
other column, and all cell values, pass through unchanged.  A table is
a list of named columns, each holding its list of cell values. -/
def standardizeColumns {α : Type} (tbl : List (String × List α)) :
    List (String × List α) :=
  tbl.map fun c =>
    match columnMapping.lookup c.1 with
    | some v => (v, c.2)
    | none => c

/-- C9: standardize_columns is a pure rename — the output has exactly
the columns of the input in order, each column's cell values (hence the
row count) unchanged; a column whose name is in the mapping table gets
the mapped canonical name; a column whose name is not in the mapping
table is unchanged entirely. -/
theorem C9_standardize_columns_pure_rename {α : Type}
    (tbl : List (String × List α)) :
    (standardizeColumns tbl).length = tbl.length ∧
    ∀ i, i < tbl.length →
      ((standardizeColumns tbl).getD i ("", [])).2 =
        (tbl.getD i ("", [])).2 ∧
      (columnMapping.lookup (tbl.getD i ("", [])).1 = none →
        (standardizeColumns tbl).getD i ("", []) = tbl.getD i ("", [])) ∧
      ∀ v, columnMapping.lookup (tbl.getD i ("", [])).1 = some v →
        ((standardizeColumns tbl).getD i ("", [])).1 = v := by
  constructor
  · simp [standardizeColumns]
  · intro i hi
    have hi2 : i < (standardizeColumns tbl).length := by
      simpa [standardizeColumns] using hi
    rw [List.getD_eq_getElem _ _ hi2, List.getD_eq_getElem _ _ hi]
    simp only [standardizeColumns, List.getElem_map]
    cases hlk : columnMapping.lookup tbl[i].1 with
    | none => simp [hlk]
    | some v => simp [hlk]

/-- C9 witness: a two-column table — LATITUDE (a mapped name) is renamed
to latitude with its values kept, and elevation (an unmapped name)
passes through unchanged. -/
theorem C9_standardize_columns_witness :
    ((standardizeColumns [("LATITUDE", [(1 : ℚ)]), ("elevation", [2])]).getD
        0 ("", [])).1 = "latitude" ∧
    ((standardizeColumns [("LATITUDE", [(1 : ℚ)]), ("elevation", [2])]).getD
        0 ("", [])).2 = [(1 : ℚ)] ∧
    (standardizeColumns [("LATITUDE", [(1 : ℚ)]), ("elevation", [2])]).getD
        1 ("", []) = ("elevation", [2]) := by
  have h := C9_standardize_columns_pure_rename
    [("LATITUDE", [(1 : ℚ)]), ("elevation", [2])]
  have h0 := h.2 0 (by norm_num)
  have h1 := h.2 1 (by norm_num)
  refine ⟨h0.2.2 "latitude" (by decide), ?_, h1.2.1 (by decide)⟩
  have := h0.1
  simpa using this
